import Mathlib

/-
Shallow embedding of the `EarlyAllocator` bump allocator from
`arceos/modules/bump_allocator/src/lib.rs`.

The allocator manages one contiguous address range `[start, end)` with two
cursors growing toward each other: bytes are allocated forward from
`byte_pos`, whole pages backward from `page_pos`.  `count` tracks
outstanding byte allocations; when it returns to zero the byte region is
bulk-freed by resetting `byte_pos` to `start`.

Machine integers: every field and argument is a Rust `usize`.  The crate is
built like the rest of the kernel in release mode, where integer overflow
wraps (two's complement); we model `usize` as `Nat` with every arithmetic
operation reduced modulo `U = 2 ^ 64`.  Rust panics (`unimplemented!`,
`assert_eq!` failure, division by zero) and the diverging
`handle_alloc_error` call are modelled as explicit `halt` / `unimplemented`
outcomes that never return to the caller; the state component paired with
such an outcome records that no field was mutated before the panic.
-/

namespace BumpAllocator

/-- Size of the `usize` value space (64-bit targets). -/
def U : Nat := 2 ^ 64

/-- Rust bitwise NOT `!x` on `usize`: for `x < U` this is `U - 1 - x`. -/
def wnot (x : Nat) : Nat := U - 1 - x % U

/-- Rust release-mode wrapping subtraction `a - b` on `usize`. -/
def wsub (a b : Nat) : Nat := (a % U + (U - b % U)) % U

/-- Rust release-mode wrapping multiplication `a * b` on `usize`. -/
def wmul (a b : Nat) : Nat := (a * b) % U

/-- Source: `const fn align_up(val, align) = (val + align - 1) & !(align - 1)`,
with `usize` wrapping arithmetic. -/
def align_up (val align : Nat) : Nat :=
  ((val % U + align % U + (U - 1)) % U) &&& wnot ((align % U + (U - 1)) % U)

/-- Source: `const fn align_down(val, align) = (val) & !(align - 1)`,
with `usize` wrapping arithmetic. -/
def align_down (val align : Nat) : Nat :=
  (val % U) &&& wnot ((align % U + (U - 1)) % U)

/-- The allocator state (the ledger).  Field `end_` renders the Rust field
`end`, which is a keyword in Lean.  Field order follows the source. -/
structure EarlyAllocator where
  start : Nat
  end_ : Nat
  count : Nat
  byte_pos : Nat
  page_pos : Nat
deriving DecidableEq

/-- Source: `EarlyAllocator::new()`, the zeroed construction. -/
def EarlyAllocator.new : EarlyAllocator :=
  { start := 0, end_ := 0, count := 0, byte_pos := 0, page_pos := 0 }

/-- Outcome of one allocator call.  `ok a` and `noMemory` are the
`Ok(a)` / `Err(AllocError::NoMemory)` values of the Rust `AllocResult`;
`halt` models a call that never returns (`handle_alloc_error` on byte-path
exhaustion, or an `assert_eq!` / division-by-zero panic in `alloc_pages`);
`unimplemented` models the `unimplemented!()` panic. -/
inductive Outcome where
  | ok (addr : Nat)
  | noMemory
  | halt
  | unimplemented
deriving DecidableEq

/-- Source: `BaseAllocator::init(&mut self, start, size)`. -/
def init (self : EarlyAllocator) (start size : Nat) : EarlyAllocator :=
  { start := start % U
    end_ := (start + size) % U
    count := 0
    byte_pos := start % U
    page_pos := (start + size) % U }

/-- Source: `BaseAllocator::add_memory(&mut self, _start, _size)`, whose
body is `unimplemented!()`: it panics before touching any field. -/
def add_memory (self : EarlyAllocator) (start size : Nat) :
    Outcome × EarlyAllocator :=
  (.unimplemented, self)

/-- Source: `ByteAllocator::alloc(&mut self, layout)`.  `size` and `align`
are `layout.size()` and `layout.align()`.  On `next > page_pos` the code
calls `handle_alloc_error` (modelled `halt`); otherwise it commits
`byte_pos = next`, `count += 1` and then returns
`NonNull::new(start as *mut u8).ok_or(AllocError::NoMemory)`, which is
`Err(NoMemory)` exactly when the aligned start address is null. -/
def alloc (self : EarlyAllocator) (size align : Nat) :
    Outcome × EarlyAllocator :=
  let start := align_up self.byte_pos align
  let next := (start + size) % U
  if self.page_pos < next then
    (.halt, self)
  else
    let self' := { self with byte_pos := next, count := (self.count + 1) % U }
    if start = 0 then (.noMemory, self') else (.ok start, self')

/-- Source: `ByteAllocator::dealloc(&mut self, _pos, _layout)`: an
unchecked `self.count -= 1` (wrapping in release mode), then the bulk
reset `byte_pos = start` when the counter has reached zero.  The pointer
and layout arguments are ignored by the body. -/
def dealloc (self : EarlyAllocator) (pos size align : Nat) : EarlyAllocator :=
  let count := (self.count + (U - 1)) % U
  if count = 0 then { self with count := count, byte_pos := self.start }
  else { self with count := count }

/-- Source: `PageAllocator::alloc_pages(&mut self, num_pages, align_pow2)`
for page size `PS` (the `PAGE_SIZE` const generic).  The leading
`assert_eq!(align_pow2 % PAGE_SIZE, 0)` panics when the remainder is
nonzero, and `%` itself panics when `PAGE_SIZE = 0`; both are `halt`. -/
def alloc_pages (PS : Nat) (self : EarlyAllocator) (num_pages align_pow2 : Nat) :
    Outcome × EarlyAllocator :=
  if PS = 0 ∨ align_pow2 % PS ≠ 0 then (.halt, self)
  else
    let next := align_down (wsub self.page_pos (wmul num_pages PS)) PS
    if next ≤ self.byte_pos then (.noMemory, self)
    else (.ok next, { self with page_pos := next })

/-- Source: `PageAllocator::dealloc_pages(&mut self, _pos, _num_pages)`,
whose body is `unimplemented!()`: it panics before touching any field. -/
def dealloc_pages (self : EarlyAllocator) (pos num_pages : Nat) :
    Outcome × EarlyAllocator :=
  (.unimplemented, self)

/-- The ledger invariant of the specification:
`start ≤ byte_cursor ≤ page_cursor ≤ end` and `live_count ≥ 0`. -/
def Inv (s : EarlyAllocator) : Prop :=
  s.start ≤ s.byte_pos ∧ s.byte_pos ≤ s.page_pos ∧ s.page_pos ≤ s.end_ ∧
    0 ≤ s.count

instance (s : EarlyAllocator) : Decidable (Inv s) := by
  unfold Inv; exact inferInstance

/-- Reachable allocator states: starting from any `init` whose range
arithmetic does not wrap, closed under successful `alloc` calls whose
candidate-end arithmetic does not wrap (the alignment is a power of two,
as the Rust `Layout` type guarantees), arbitrary `dealloc` calls, and
successful `alloc_pages` calls whose `num_pages * PAGE_SIZE` does not
underflow the cursor. -/
inductive Reach (PS : Nat) : EarlyAllocator → Prop where
  | init (s₀ : EarlyAllocator) (start size : Nat)
      (hnw : start + size < U) :
      Reach PS (BumpAllocator.init s₀ start size)
  | alloc_ok (s s' : EarlyAllocator) (size align a k : Nat)
      (hs : Reach PS s) (hal : align = 2 ^ k) (hk : k < 64)
      (hnw : align_up s.byte_pos align + size < U)
      (hok : alloc s size align = (.ok a, s')) : Reach PS s'
  | dealloc_call (s : EarlyAllocator) (pos size align : Nat)
      (hs : Reach PS s) : Reach PS (dealloc s pos size align)
  | alloc_pages_ok (s s' : EarlyAllocator) (n al a : Nat)
      (hs : Reach PS s) (hnw : n * PS ≤ s.page_pos)
      (hok : alloc_pages PS s n al = (.ok a, s')) : Reach PS s'

/-- A run of successful `alloc_pages` calls from a given state, recording
for each call the returned base address and the page count requested.
Each step requires at least one page and no cursor underflow. -/
inductive PageTrace (PS : Nat) : EarlyAllocator → List (Nat × Nat) → EarlyAllocator → Prop where
  | nil (s : EarlyAllocator) : PageTrace PS s [] s
  | cons (s s' s'' : EarlyAllocator) (n al a : Nat) (rs : List (Nat × Nat))
      (hn : 1 ≤ n) (hnw : n * PS ≤ s.page_pos)
      (hok : alloc_pages PS s n al = (.ok a, s'))
      (ht : PageTrace PS s' rs s'') : PageTrace PS s ((a, n) :: rs) s''

/-- Bitwise AND with the mask `2 ^ 64 - 2 ^ k` clears the low `k` bits:
on values below `2 ^ 64` it is subtraction of the remainder mod `2 ^ k`. -/
theorem land_mask (x k : Nat) (hx : x < 2 ^ 64) (hk : k ≤ 64) :
    x &&& (2 ^ 64 - 2 ^ k) = x - x % 2 ^ k := by
  have h64 : (2 : Nat) ^ (64 - k) * 2 ^ k = 2 ^ 64 := by
    rw [← pow_add]; congr 1; omega
  have hmask : (2 : Nat) ^ 64 - 2 ^ k = (2 ^ (64 - k) - 1) <<< k := by
    rw [Nat.shiftLeft_eq, Nat.sub_mul, one_mul, h64]
  have hrhs : x - x % 2 ^ k = (x >>> k) <<< k := by
    rw [Nat.shiftLeft_eq, Nat.shiftRight_eq_div_pow]
    have h := Nat.div_add_mod x (2 ^ k)
    rw [Nat.mul_comm] at h
    omega
  rw [hmask, hrhs]
  apply Nat.eq_of_testBit_eq
  intro i
  rw [Nat.testBit_and]
  by_cases hik : k ≤ i
  · have h1 : k + (i - k) = i := by omega
    by_cases hi64 : i < 64
    · have h2 : i - k < 64 - k := by omega
      simp [Nat.testBit_shiftLeft, Nat.testBit_shiftRight, hik, h1, h2]
    · have h2 : ¬ i - k < 64 - k := by omega
      have hxi : Nat.testBit x i = false := by
        apply Nat.testBit_lt_two_pow
        calc x < 2 ^ 64 := hx
          _ ≤ 2 ^ i := Nat.pow_le_pow_right (by norm_num) (by omega)
      simp [Nat.testBit_shiftLeft, Nat.testBit_shiftRight, hik, h1, h2, hxi]
  · simp [Nat.testBit_shiftLeft, Nat.testBit_shiftRight, hik]

theorem two_pow_lt_U (k : Nat) (hk : k < 64) : 2 ^ k < U := by
  unfold U
  exact Nat.pow_lt_pow_right (by norm_num) hk

/-- The mask argument of both alignment functions, for a power-of-two
alignment: `!(align - 1)` is `2 ^ 64 - 2 ^ k`. -/
theorem wnot_pow2 (k : Nat) (hk : k < 64) :
    wnot ((2 ^ k % U + (U - 1)) % U) = 2 ^ 64 - 2 ^ k := by
  have hkU : 2 ^ k < U := two_pow_lt_U k hk
  have h1 : (1 : Nat) ≤ 2 ^ k := Nat.one_le_two_pow
  have h2 : (2 : Nat) ^ k % U = 2 ^ k := Nat.mod_eq_of_lt hkU
  rw [h2]
  have h3 : (2 ^ k + (U - 1)) % U = 2 ^ k - 1 := by
    have : 2 ^ k + (U - 1) = (2 ^ k - 1) + U := by omega
    rw [this, Nat.add_mod_right, Nat.mod_eq_of_lt (by omega)]
  rw [h3]
  unfold wnot U
  have h4 : (2 ^ k - 1) % 2 ^ 64 = 2 ^ k - 1 := Nat.mod_eq_of_lt (by
    have := two_pow_lt_U k hk
    unfold U at this
    omega)
  rw [h4]
  have := two_pow_lt_U k hk
  unfold U at this
  omega

/-- `align_down` with a power-of-two alignment, on an in-range value,
rounds down to the nearest multiple of `2 ^ k`. -/
theorem align_down_pow2 (x k : Nat) (hx : x < U) (hk : k < 64) :
    align_down x (2 ^ k) = x - x % 2 ^ k := by
  unfold align_down
  rw [wnot_pow2 k hk, Nat.mod_eq_of_lt hx]
  exact land_mask x k hx (by omega)

/-- `align_up` with a power-of-two alignment, when the inner addition does
not wrap, rounds `x` up to the nearest multiple of `2 ^ k`. -/
theorem align_up_pow2 (x k : Nat) (hk : k < 64) (hnw : x + 2 ^ k ≤ U) :
    align_up x (2 ^ k) = (x + 2 ^ k - 1) - (x + 2 ^ k - 1) % 2 ^ k := by
  have h1 : (1 : Nat) ≤ 2 ^ k := Nat.one_le_two_pow
  have hx : x < U := by omega
  unfold align_up
  rw [wnot_pow2 k hk, Nat.mod_eq_of_lt hx,
    Nat.mod_eq_of_lt (two_pow_lt_U k hk)]
  have h2 : (x + 2 ^ k + (U - 1)) % U = x + 2 ^ k - 1 := by
    have h3 : x + 2 ^ k + (U - 1) = (x + 2 ^ k - 1) + U := by omega
    rw [h3, Nat.add_mod_right, Nat.mod_eq_of_lt (by omega)]
  rw [h2]
  have h4 : x + 2 ^ k - 1 < 2 ^ 64 := by
    have : U = 2 ^ 64 := rfl
    omega
  exact land_mask _ k h4 (by omega)

/-- `align_up` with a power-of-two alignment returns `0` when the inner
addition wraps around `2 ^ 64`. -/
theorem align_up_wrap (x k : Nat) (hx : x < U) (hk : k < 64)
    (hw : U < x + 2 ^ k) : align_up x (2 ^ k) = 0 := by
  have h1 : (1 : Nat) ≤ 2 ^ k := Nat.one_le_two_pow
  have hkU : 2 ^ k < U := two_pow_lt_U k hk
  unfold align_up
  rw [wnot_pow2 k hk, Nat.mod_eq_of_lt hx, Nat.mod_eq_of_lt hkU]
  have h2 : (x + 2 ^ k + (U - 1)) % U = x + 2 ^ k - 1 - U := by
    have h3 : x + 2 ^ k + (U - 1) = (x + 2 ^ k - 1 - U) + U + U := by omega
    rw [h3, Nat.add_mod_right, Nat.add_mod_right, Nat.mod_eq_of_lt (by omega)]
  rw [h2]
  have h5 : x + 2 ^ k - 1 - U < 2 ^ k := by omega
  rw [land_mask _ k (by
      have : (2 : Nat) ^ k < 2 ^ 64 := by
        have : U = 2 ^ 64 := rfl
        omega
      omega) (by omega)]
  rw [Nat.mod_eq_of_lt h5]
  omega

/-- Rounding up to a power of two does not go below the argument
(no-wrap case). -/
theorem align_up_ge (x k : Nat) (hk : k < 64) (hnw : x + 2 ^ k ≤ U) :
    x ≤ align_up x (2 ^ k) := by
  rw [align_up_pow2 x k hk hnw]
  have h1 : (1 : Nat) ≤ 2 ^ k := Nat.one_le_two_pow
  have h2 : (x + 2 ^ k - 1) % 2 ^ k < 2 ^ k := Nat.mod_lt _ (by omega)
  omega

/-- Wrapping subtraction agrees with truncated subtraction when no
underflow occurs. -/
theorem wsub_no_underflow (a b : Nat) (ha : a < U) (hb : b ≤ a) :
    wsub a b = a - b := by
  unfold wsub
  have hbU : b % U = b := Nat.mod_eq_of_lt (by omega)
  have haU : a % U = a := Nat.mod_eq_of_lt ha
  rw [haU, hbU]
  have hU : 0 < U := by unfold U; positivity
  have h : a + (U - b) = (a - b) + U := by omega
  rw [h, Nat.add_mod_right, Nat.mod_eq_of_lt (by omega)]

/-- Wrapping multiplication agrees with multiplication below `2 ^ 64`. -/
theorem wmul_no_overflow (a b : Nat) (h : a * b < U) : wmul a b = a * b :=
  Nat.mod_eq_of_lt h

/-- Inversion of a successful `alloc` call: the returned address is the
aligned cursor, it is nonnull, the candidate end fits under `page_pos`,
and the committed state advances `byte_pos` and bumps `count`. -/
theorem alloc_ok_cases (s : EarlyAllocator) (size align a : Nat)
    (s' : EarlyAllocator) (hok : alloc s size align = (.ok a, s')) :
    a = align_up s.byte_pos align ∧ a ≠ 0 ∧
      (align_up s.byte_pos align + size) % U ≤ s.page_pos ∧
      s' = { s with byte_pos := (align_up s.byte_pos align + size) % U,
                    count := (s.count + 1) % U } := by
  simp only [alloc] at hok
  split at hok
  · simp at hok
  next hle =>
    split at hok
    · simp at hok
    next h0 =>
      simp only [Prod.mk.injEq, Outcome.ok.injEq] at hok
      obtain ⟨ha, hs'⟩ := hok
      refine ⟨ha.symm, ?_, Nat.le_of_not_lt hle, hs'.symm⟩
      rw [← ha]
      exact h0

/-- Inversion of a successful `alloc_pages` call: the precondition assert
passed, the returned address is the aligned-down candidate lying strictly
above `byte_pos`, and only `page_pos` changed. -/
theorem alloc_pages_ok_cases (PS : Nat) (s : EarlyAllocator)
    (n al a : Nat) (s' : EarlyAllocator)
    (hok : alloc_pages PS s n al = (.ok a, s')) :
    PS ≠ 0 ∧ al % PS = 0 ∧
      a = align_down (wsub s.page_pos (wmul n PS)) PS ∧
      s.byte_pos < a ∧ s' = { s with page_pos := a } := by
  simp only [alloc_pages] at hok
  split at hok
  · simp at hok
  next hguard =>
    split at hok
    · simp at hok
    next hle =>
      simp only [Prod.mk.injEq, Outcome.ok.injEq] at hok
      obtain ⟨ha, hs'⟩ := hok
      push_neg at hguard
      refine ⟨hguard.1, hguard.2, ha.symm, ?_, ?_⟩
      · rw [ha] at hle
        exact Nat.lt_of_not_le hle
      · rw [ha] at hs'
        exact hs'.symm

/-- Arithmetic characterisation of a successful `alloc_pages` call for a
power-of-two page size and non-underflowing request. -/
theorem alloc_pages_ok_arith (PS k : Nat) (s : EarlyAllocator)
    (n al a : Nat) (s' : EarlyAllocator)
    (hPS : PS = 2 ^ k) (hk : k < 64)
    (hnw : n * PS ≤ s.page_pos) (hU : s.page_pos < U)
    (hok : alloc_pages PS s n al = (.ok a, s')) :
    s' = { s with page_pos := a } ∧ s.byte_pos < a ∧
      a = (s.page_pos - n * PS) - (s.page_pos - n * PS) % PS := by
  obtain ⟨hPS0, hal, ha, hlt, hs'⟩ := alloc_pages_ok_cases PS s n al a s' hok
  refine ⟨hs', hlt, ?_⟩
  rw [ha, wmul_no_overflow n PS (by omega), wsub_no_underflow _ _ hU hnw,
    hPS]
  exact align_down_pow2 _ k (by omega) hk

/-- Every reachable state satisfies the ledger invariant and keeps its
range end below `2 ^ 64` (the strengthened induction hypothesis). -/
theorem reach_inv_aux (PS k : Nat) (hPS : PS = 2 ^ k) (hk : k < 64)
    (s : EarlyAllocator) (hs : Reach PS s) : Inv s ∧ s.end_ < U := by
  induction hs with
  | init s₀ start size hnw =>
    unfold init Inv
    have h1 : start % U = start := Nat.mod_eq_of_lt (by omega)
    have h2 : (start + size) % U = start + size := Nat.mod_eq_of_lt hnw
    simp only [h1, h2]
    omega
  | alloc_ok s s' size align a k' hs hal hk' hnw hok ih =>
    obtain ⟨⟨hi1, hi2, hi3, hi4⟩, hiU⟩ := ih
    obtain ⟨ha, hane, hle, hs'⟩ := alloc_ok_cases s size align a s' hok
    subst hs'
    subst hal
    have hbyte : s.byte_pos < U := by omega
    have hge : s.byte_pos ≤ align_up s.byte_pos (2 ^ k') := by
      by_cases hbw : s.byte_pos + 2 ^ k' ≤ U
      · exact align_up_ge s.byte_pos k' hk' hbw
      · exact absurd (ha.trans (align_up_wrap s.byte_pos k' hbyte hk'
          (by omega))) hane
    have hnext : (align_up s.byte_pos (2 ^ k') + size) % U =
        align_up s.byte_pos (2 ^ k') + size := Nat.mod_eq_of_lt hnw
    rw [hnext] at hle
    unfold Inv
    simp only [hnext]
    exact ⟨⟨by omega, by omega, hi3, by omega⟩, hiU⟩
  | dealloc_call s pos size align hs ih =>
    obtain ⟨⟨hi1, hi2, hi3, hi4⟩, hiU⟩ := ih
    by_cases hc : (s.count + (U - 1)) % U = 0
    · have hd : dealloc s pos size align =
          { s with count := (s.count + (U - 1)) % U, byte_pos := s.start } := by
        unfold dealloc
        simp [hc]
      rw [hd]
      refine ⟨⟨?_, ?_, ?_, ?_⟩, ?_⟩ <;> simp <;> omega
    · have hd : dealloc s pos size align =
          { s with count := (s.count + (U - 1)) % U } := by
        unfold dealloc
        simp [hc]
      rw [hd]
      refine ⟨⟨?_, ?_, ?_, ?_⟩, ?_⟩ <;> simp <;> omega
  | alloc_pages_ok s s' n al a hs hnw hok ih =>
    obtain ⟨⟨hi1, hi2, hi3, hi4⟩, hiU⟩ := ih
    obtain ⟨hs', hlt, ha⟩ :=
      alloc_pages_ok_arith PS k s n al a s' hPS hk hnw (by omega) hok
    subst hs'
    unfold Inv
    simp only
    exact ⟨⟨hi1, by omega, by omega, by omega⟩, hiU⟩

/-- Along a page trace the cursor only moves down, and every returned
range `[a, a + n * PS)` lies between the final and the initial cursor. -/
theorem page_trace_bound (PS k : Nat) (hPS : PS = 2 ^ k) (hk : k < 64)
    (s : EarlyAllocator) (rs : List (Nat × Nat)) (s' : EarlyAllocator)
    (ht : PageTrace PS s rs s') :
    s.page_pos < U →
      s'.page_pos ≤ s.page_pos ∧
        ∀ p ∈ rs, s'.page_pos ≤ p.1 ∧ p.1 + p.2 * PS ≤ s.page_pos := by
  induction ht with
  | nil s =>
    intro hU
    exact ⟨Nat.le_refl _, by simp⟩
  | cons s t t' n al a rs hn hnw hok htr ih =>
    intro hU
    obtain ⟨hts, hlt, ha⟩ :=
      alloc_pages_ok_arith PS k s n al a t hPS hk hnw hU hok
    have hta : t.page_pos = a := by rw [hts]
    have htU : t.page_pos < U := by omega
    obtain ⟨ih1, ih2⟩ := ih htU
    refine ⟨by omega, ?_⟩
    intro p hp
    rcases List.mem_cons.mp hp with heq | hmem
    · subst heq
      constructor
      · show t'.page_pos ≤ a
        omega
      · show a + n * PS ≤ s.page_pos
        omega
    · obtain ⟨h1, h2⟩ := ih2 p hmem
      exact ⟨h1, by omega⟩

/-- C7: for every state and all arguments, `add_memory` and
`dealloc_pages` reject the call with the `unimplemented!()` panic — they
never succeed or silently return — and the ledger is unchanged. -/
theorem C7_unsupported_ops_unimplemented (s : EarlyAllocator)
    (a b p n : Nat) :
    add_memory s a b = (.unimplemented, s) ∧
      dealloc_pages s p n = (.unimplemented, s) :=
  ⟨rfl, rfl⟩

/-- C9: whenever `alloc_pages` returns the `NoMemory` error, all five
ledger fields are exactly as they were before the call. -/
theorem C9_nomem_preserves_ledger (PS : Nat) (s : EarlyAllocator)
    (n al : Nat) (h : (alloc_pages PS s n al).1 = .noMemory) :
    (alloc_pages PS s n al).2.start = s.start ∧
      (alloc_pages PS s n al).2.end_ = s.end_ ∧
      (alloc_pages PS s n al).2.byte_pos = s.byte_pos ∧
      (alloc_pages PS s n al).2.page_pos = s.page_pos ∧
      (alloc_pages PS s n al).2.count = s.count := by
  by_cases h1 : PS = 0 ∨ al % PS ≠ 0
  · simp only [alloc_pages, if_pos h1] at h
    simp at h
  · by_cases h2 : align_down (wsub s.page_pos (wmul n PS)) PS ≤ s.byte_pos
    · simp only [alloc_pages, if_neg h1, if_pos h2]
      exact ⟨trivial, trivial, trivial, trivial, trivial⟩
    · simp only [alloc_pages, if_neg h1, if_neg h2] at h
      simp at h

/-- C9 witness: the failing call `alloc_pages(2, 0x1000)` on the region
`[0x1000, 0x3000)` leaves every ledger field untouched. -/
theorem C9_nomem_preserves_ledger_witness :
    ((alloc_pages 0x1000 (init EarlyAllocator.new 0x1000 0x2000) 2 0x1000).1 =
        .noMemory) ∧
      ((alloc_pages 0x1000 (init EarlyAllocator.new 0x1000 0x2000) 2 0x1000).2.start =
          (init EarlyAllocator.new 0x1000 0x2000).start ∧
        (alloc_pages 0x1000 (init EarlyAllocator.new 0x1000 0x2000) 2 0x1000).2.end_ =
          (init EarlyAllocator.new 0x1000 0x2000).end_ ∧
        (alloc_pages 0x1000 (init EarlyAllocator.new 0x1000 0x2000) 2 0x1000).2.byte_pos =
          (init EarlyAllocator.new 0x1000 0x2000).byte_pos ∧
        (alloc_pages 0x1000 (init EarlyAllocator.new 0x1000 0x2000) 2 0x1000).2.page_pos =
          (init EarlyAllocator.new 0x1000 0x2000).page_pos ∧
        (alloc_pages 0x1000 (init EarlyAllocator.new 0x1000 0x2000) 2 0x1000).2.count =
          (init EarlyAllocator.new 0x1000 0x2000).count) :=
  ⟨by decide,
    C9_nomem_preserves_ledger 0x1000 (init EarlyAllocator.new 0x1000 0x2000)
      2 0x1000 (by decide)⟩

/-- C10: when the aligned candidate address is `0` and the request fits
below `page_cursor`, `alloc` returns the `NoMemory` error even though it
has already advanced `byte_pos` and bumped `count`: an error return from
`alloc` does not imply the ledger is unchanged. -/
theorem C10_error_return_mutates_ledger (s : EarlyAllocator)
    (size align : Nat) (h0 : align_up s.byte_pos align = 0)
    (hfit : size % U ≤ s.page_pos) :
    alloc s size align =
      (.noMemory,
       { s with byte_pos := size % U, count := (s.count + 1) % U }) := by
  simp only [alloc, h0, Nat.zero_add]
  rw [if_neg (Nat.not_lt.mpr hfit)]
  simp

/-- C10 witness: after `init(0, 0x1000)` the call `alloc(1, 1)` returns
`NoMemory` yet advances `byte_pos` to `1` and `count` to `1`. -/
theorem C10_error_return_mutates_ledger_witness :
    align_up ({ start := 0, end_ := 0x1000, count := 0, byte_pos := 0,
                page_pos := 0x1000 } : EarlyAllocator).byte_pos 1 = 0 ∧
      (1 : Nat) % U ≤
        ({ start := 0, end_ := 0x1000, count := 0, byte_pos := 0,
           page_pos := 0x1000 } : EarlyAllocator).page_pos ∧
      alloc ({ start := 0, end_ := 0x1000, count := 0, byte_pos := 0,
               page_pos := 0x1000 } : EarlyAllocator) 1 1 =
        (.noMemory,
         { start := 0, end_ := 0x1000, count := 1, byte_pos := 1,
           page_pos := 0x1000 }) :=
  ⟨by decide, by decide, by
    have h := C10_error_return_mutates_ledger
      { start := 0, end_ := 0x1000, count := 0, byte_pos := 0,
        page_pos := 0x1000 } 1 1 (by decide) (by decide)
    rw [h]
    decide⟩

/-- C6 counterexample: the code has no fail-fast guard in `dealloc`: with
`live_count = 0` the unchecked decrement silently wraps the counter to
`2 ^ 64 - 1`, a large value, contradicting the claim. -/
theorem C6_counterexample :
    dealloc { start := 0x1000, end_ := 0x3000, count := 0,
              byte_pos := 0x1000, page_pos := 0x3000 } 0x1000 0x10 1 =
      { start := 0x1000, end_ := 0x3000, count := 2 ^ 64 - 1,
        byte_pos := 0x1000, page_pos := 0x3000 } ∧
      (2 ^ 64 - 1 : Nat) ≠ 0 := by
  decide

/-- C6 (amended): `dealloc` performs an unchecked wrapping decrement, so
calling it in a state with `live_count = 0` silently wraps the counter to
`2 ^ 64 - 1` and performs no reset: there is no explicit fail-fast
guard. -/
theorem C6_dealloc_underflow_wraps (s : EarlyAllocator)
    (pos size align : Nat) (h0 : s.count = 0) :
    dealloc s pos size align = { s with count := U - 1 } := by
  have hUval : U = 18446744073709551616 := by norm_num [U]
  have hc : (s.count + (U - 1)) % U = U - 1 := by
    rw [h0, hUval]
  simp only [dealloc, hc]
  rw [if_neg (by norm_num [U])]

/-- C6 witness: the amended statement evaluated on a concrete zero-count
state. -/
theorem C6_dealloc_underflow_wraps_witness :
    ({ start := 0x1000, end_ := 0x3000, count := 0, byte_pos := 0x1000,
       page_pos := 0x3000 } : EarlyAllocator).count = 0 ∧
      dealloc { start := 0x1000, end_ := 0x3000, count := 0,
                byte_pos := 0x1000, page_pos := 0x3000 } 0 0x10 1 =
        { start := 0x1000, end_ := 0x3000, count := U - 1,
          byte_pos := 0x1000, page_pos := 0x3000 } :=
  ⟨rfl, by
    have h := C6_dealloc_underflow_wraps
      { start := 0x1000, end_ := 0x3000, count := 0, byte_pos := 0x1000,
        page_pos := 0x3000 } 0 0x10 1 rfl
    rw [h]⟩

/-- C4: for every state and request with the alignment a multiple of the
page size, `alloc_pages` computes the aligned-down candidate; when it is
at or below `byte_pos` the call fails with the typed `NoMemory` error,
otherwise it commits `page_pos` to the candidate and returns it. -/
theorem C4_alloc_pages_branch_spec (PS k : Nat) (s : EarlyAllocator)
    (n al : Nat) (hPS : PS = 2 ^ k) (hk : k < 64) (hal : al % PS = 0) :
    (align_down (wsub s.page_pos (wmul n PS)) PS ≤ s.byte_pos →
       alloc_pages PS s n al = (.noMemory, s)) ∧
      (s.byte_pos < align_down (wsub s.page_pos (wmul n PS)) PS →
        alloc_pages PS s n al =
          (.ok (align_down (wsub s.page_pos (wmul n PS)) PS),
           { s with
               page_pos := align_down (wsub s.page_pos (wmul n PS)) PS })) := by
  have hPS0 : PS ≠ 0 := by
    rw [hPS]
    have := Nat.two_pow_pos k
    omega
  constructor
  · intro hle
    simp only [alloc_pages]
    rw [if_neg (fun h => h.elim hPS0 (fun h2 => h2 hal)), if_pos hle]
  · intro hlt
    simp only [alloc_pages]
    rw [if_neg (fun h => h.elim hPS0 (fun h2 => h2 hal)),
      if_neg (Nat.not_le.mpr hlt)]

/-- C4 witness: on the region `[0x1000, 0x6000)` with page size `0x1000`,
`alloc_pages(2, 0x1000)` commits the cursor to the candidate `0x4000` and
returns it. -/
theorem C4_alloc_pages_branch_spec_witness :
    (0x1000 : Nat) = 2 ^ 12 ∧ (12 : Nat) < 64 ∧
      (0x1000 : Nat) % 0x1000 = 0 ∧
      alloc_pages 0x1000 (init EarlyAllocator.new 0x1000 0x5000) 2 0x1000 =
        (.ok 0x4000,
         { start := 0x1000, end_ := 0x6000, count := 0, byte_pos := 0x1000,
           page_pos := 0x4000 }) :=
  ⟨by norm_num, by norm_num, by norm_num, by
    have h := (C4_alloc_pages_branch_spec 0x1000 12
      (init EarlyAllocator.new 0x1000 0x5000) 2 0x1000 (by norm_num)
      (by norm_num) (by norm_num)).2 (by decide)
    rw [h]
    decide⟩

/-- C1 counterexample: a successful `alloc_pages` call whose
`page_pos - num_pages * PAGE_SIZE` underflows (4 pages requested from the
8 KiB region `[0x1000, 0x3000)`) wraps the cursor to `2 ^ 64 - 0x1000`:
the call returns `Ok` yet the resulting ledger violates
`page_cursor ≤ end`. -/
theorem C1_counterexample :
    (alloc_pages 0x1000 (init EarlyAllocator.new 0x1000 0x2000)
        4 0x1000).1 = .ok (2 ^ 64 - 0x1000) ∧
      ¬ Inv (alloc_pages 0x1000 (init EarlyAllocator.new 0x1000 0x2000)
        4 0x1000).2 := by
  decide

/-- C1 (amended): for every state reachable from an `init` whose
`start + size` does not wrap, by successful `alloc` calls whose aligned
candidate end stays below `2 ^ 64`, arbitrary `dealloc` calls, and
successful `alloc_pages` calls whose `num_pages * page_size` does not
underflow `page_cursor`, the ledger satisfies
`start ≤ byte_cursor ≤ page_cursor ≤ end` and `live_count ≥ 0`. -/
theorem C1_reachable_ledger_invariant (PS k : Nat) (s : EarlyAllocator)
    (hPS : PS = 2 ^ k) (hk : k < 64) (hs : Reach PS s) : Inv s :=
  (reach_inv_aux PS k hPS hk s hs).1

/-- C1 witness: the invariant evaluated on the reachable state
`init(0x1000, 0x2000)` with page size `0x1000`. -/
theorem C1_reachable_ledger_invariant_witness :
    (0x1000 : Nat) = 2 ^ 12 ∧ (12 : Nat) < 64 ∧
      Inv (init EarlyAllocator.new 0x1000 0x2000) :=
  ⟨by norm_num, by norm_num,
    C1_reachable_ledger_invariant 0x1000 12
      (init EarlyAllocator.new 0x1000 0x2000) (by norm_num) (by norm_num)
      (Reach.init EarlyAllocator.new 0x1000 0x2000 (by decide))⟩

/-- C2 counterexample: on the region `[0x1000, 0x3000)` with page size
`0x1000`, the call `alloc_pages(2, 0x1000)` does not succeed: the aligned
candidate equals `byte_pos` and the code's `next <= self.byte_pos` test
rejects it with `NoMemory`. -/
theorem C2_counterexample :
    (alloc_pages 0x1000 (init EarlyAllocator.new 0x1000 0x2000)
        2 0x1000).1 = .noMemory := by
  decide

/-- C2 (amended): after `init(0x1000, 0x2000)` with page size `0x1000`,
`alloc_pages(2, 0x1000)` fails with `NoMemory` because the candidate
`0x1000` is not strictly above `byte_cursor = 0x1000`, leaving the ledger
unchanged with `page_cursor = 0x3000` and `byte_cursor = 0x1000`; a
following `alloc(1, 1)` therefore still succeeds and returns `0x1000`. -/
theorem C2_exhaustion_scenario :
    alloc_pages 0x1000 (init EarlyAllocator.new 0x1000 0x2000) 2 0x1000 =
      (.noMemory, init EarlyAllocator.new 0x1000 0x2000) ∧
      (init EarlyAllocator.new 0x1000 0x2000).page_pos = 0x3000 ∧
      (init EarlyAllocator.new 0x1000 0x2000).byte_pos = 0x1000 ∧
      alloc (init EarlyAllocator.new 0x1000 0x2000) 1 1 =
        (.ok 0x1000,
         { start := 0x1000, end_ := 0x3000, count := 1, byte_pos := 0x1001,
           page_pos := 0x3000 }) := by
  decide

/-- C3 counterexample: in the state produced by `init(0, 0x1000)` the
request `(size 1, align 1)` has aligned candidate `0` and fits below
`page_cursor`, yet `alloc` does not return the candidate start: it
returns the `NoMemory` error instead. -/
theorem C3_counterexample :
    align_up (0 : Nat) 1 = 0 ∧
      (align_up (0 : Nat) 1 + 1) % U ≤ (0x1000 : Nat) ∧
      (alloc { start := 0, end_ := 0x1000, count := 0, byte_pos := 0,
               page_pos := 0x1000 } 1 1).1 ≠ .ok (align_up (0 : Nat) 1) := by
  decide

/-- C3 (amended): for every state and request with a power-of-two
alignment, `alloc` computes the aligned candidate start and the wrapped
candidate end; if the end exceeds `page_cursor` the allocation fails (the
unrecoverable out-of-memory halt) with the ledger untouched; otherwise it
commits `byte_cursor = candidate_end` and bumps `live_count`, returning
`candidate_start` when that address is nonzero and the `NoMemory` error
(with the ledger nevertheless updated) when it is zero. -/
theorem C3_alloc_branch_spec (s : EarlyAllocator) (size align k : Nat)
    (hal : align = 2 ^ k) (hk : k < 64) :
    (s.page_pos < (align_up s.byte_pos align + size) % U →
       alloc s size align = (.halt, s)) ∧
      ((align_up s.byte_pos align + size) % U ≤ s.page_pos →
        align_up s.byte_pos align ≠ 0 →
        alloc s size align =
          (.ok (align_up s.byte_pos align),
           { s with byte_pos := (align_up s.byte_pos align + size) % U,
                    count := (s.count + 1) % U })) ∧
      ((align_up s.byte_pos align + size) % U ≤ s.page_pos →
        align_up s.byte_pos align = 0 →
        alloc s size align =
          (.noMemory,
           { s with byte_pos := (align_up s.byte_pos align + size) % U,
                    count := (s.count + 1) % U })) := by
  refine ⟨?_, ?_, ?_⟩
  · intro hgt
    simp only [alloc]
    rw [if_pos hgt]
  · intro hle h0
    simp only [alloc]
    rw [if_neg (Nat.not_lt.mpr hle), if_neg h0]
  · intro hle h0
    simp only [alloc]
    rw [if_neg (Nat.not_lt.mpr hle), if_pos h0]

/-- C3 witness: the committing branch evaluated after
`init(0x1000, 0x2000)` for the request `(size 0x10, align 8)`. -/
theorem C3_alloc_branch_spec_witness :
    (8 : Nat) = 2 ^ 3 ∧ (3 : Nat) < 64 ∧
      alloc (init EarlyAllocator.new 0x1000 0x2000) 0x10 8 =
        (.ok 0x1000,
         { start := 0x1000, end_ := 0x3000, count := 1, byte_pos := 0x1010,
           page_pos := 0x3000 }) :=
  ⟨by norm_num, by norm_num, by
    have h := (C3_alloc_branch_spec (init EarlyAllocator.new 0x1000 0x2000)
      0x10 8 3 (by norm_num) (by norm_num)).2.1 (by decide) (by decide)
    rw [h]
    decide⟩

/-- C5: for every state with at least one live allocation, `dealloc`
decrements `live_count` by one, ignoring the pointer and layout
arguments, and resets `byte_cursor` to `start` exactly when the counter
reaches zero; concretely, after `init(0x1000, 0x1000)`, allocating twice
and deallocating twice makes the next allocation return the original
start address `0x1000` again. -/
theorem C5_dealloc_spec :
    (∀ (s : EarlyAllocator) (pos size align : Nat),
        1 ≤ s.count → s.count < U →
        dealloc s pos size align =
          (if s.count = 1 then { s with count := 0, byte_pos := s.start }
           else { s with count := s.count - 1 })) ∧
      (alloc (init EarlyAllocator.new 0x1000 0x1000) 0x10 1).1 =
        .ok 0x1000 ∧
      (alloc (dealloc (dealloc
          (alloc (alloc (init EarlyAllocator.new 0x1000 0x1000) 0x10 1).2
            0x10 1).2 0x1010 0x10 1) 0x1000 0x10 1) 0x10 1).1 =
        .ok 0x1000 := by
  refine ⟨?_, by decide, by decide⟩
  intro s pos size align h1 hU
  have hUval : U = 18446744073709551616 := by norm_num [U]
  have hc : (s.count + (U - 1)) % U = s.count - 1 := by
    rw [hUval] at hU ⊢
    omega
  simp only [dealloc, hc]
  by_cases h2 : s.count = 1
  · rw [if_pos (by omega : s.count - 1 = 0), if_pos h2]
    simp [h2]
  · rw [if_neg (by omega : ¬ s.count - 1 = 0), if_neg h2]

/-- C5 witness: the decrement equation evaluated on a concrete state with
two live allocations. -/
theorem C5_dealloc_spec_witness :
    1 ≤ (2 : Nat) ∧ (2 : Nat) < U ∧
      dealloc { start := 0x1000, end_ := 0x3000, count := 2,
                byte_pos := 0x1020, page_pos := 0x3000 } 0x1000 0x10 1 =
        { start := 0x1000, end_ := 0x3000, count := 1, byte_pos := 0x1020,
          page_pos := 0x3000 } :=
  ⟨by norm_num, by norm_num [U], by
    have h := C5_dealloc_spec.1
      { start := 0x1000, end_ := 0x3000, count := 2, byte_pos := 0x1020,
        page_pos := 0x3000 } 0x1000 0x10 1 (by norm_num) (by norm_num [U])
    rw [h]
    decide⟩

/-- Along a page trace the recorded ranges are strictly descending: each
later range ends at or below the base of every earlier one. -/
theorem page_trace_pairwise (PS k : Nat) (hPS : PS = 2 ^ k) (hk : k < 64)
    (s : EarlyAllocator) (rs : List (Nat × Nat)) (s' : EarlyAllocator)
    (ht : PageTrace PS s rs s') :
    s.page_pos < U →
      List.Pairwise (fun p q => q.1 + q.2 * PS ≤ p.1) rs := by
  induction ht with
  | nil s =>
    intro hU
    exact List.Pairwise.nil
  | cons s t t' n al a rs hn hnw hok htr ih =>
    intro hU
    obtain ⟨hts, hlt, ha⟩ :=
      alloc_pages_ok_arith PS k s n al a t hPS hk hnw hU hok
    have hta : t.page_pos = a := by rw [hts]
    have htU : t.page_pos < U := by omega
    refine List.Pairwise.cons ?_ (ih htU)
    intro q hq
    obtain ⟨h1, h2⟩ :=
      (page_trace_bound PS k hPS hk t rs t' htr htU).2 q hq
    show q.1 + q.2 * PS ≤ a
    omega

/-- C8 counterexample: two successful `alloc_pages` calls on the region
`[0x1000, 0x3000)` with page size `0x1000` that do not strictly decrease
`page_cursor`: requesting `0` pages succeeds and leaves the cursor
unchanged, and requesting `4` pages (more than remain) underflows and
wraps, so the call succeeds while the cursor increases. -/
theorem C8_counterexample :
    ((alloc_pages 0x1000 (init EarlyAllocator.new 0x1000 0x2000)
          0 0x1000).1 = .ok 0x3000 ∧
        (alloc_pages 0x1000 (init EarlyAllocator.new 0x1000 0x2000)
            0 0x1000).2.page_pos =
          (init EarlyAllocator.new 0x1000 0x2000).page_pos) ∧
      ((alloc_pages 0x1000 (init EarlyAllocator.new 0x1000 0x2000)
            4 0x1000).1 = .ok (2 ^ 64 - 0x1000) ∧
        (init EarlyAllocator.new 0x1000 0x2000).page_pos <
          (alloc_pages 0x1000 (init EarlyAllocator.new 0x1000 0x2000)
              4 0x1000).2.page_pos) := by
  decide

/-- C8 (amended): every successful `alloc_pages(num_pages, align)` call
with `num_pages ≥ 1` and `num_pages * page_size ≤ page_cursor` strictly
decreases `page_cursor`, by exactly `num_pages * page_size` once the
cursor is page-aligned, and the returned range lies wholly below the old
cursor; across any sequence of such successful calls the returned page
ranges `[result, result + num_pages * page_size)` never overlap. -/
theorem C8_pages_decrease_disjoint :
    (∀ (PS k : Nat) (s : EarlyAllocator) (n al a : Nat)
        (s' : EarlyAllocator),
        PS = 2 ^ k → k < 64 → 1 ≤ n → n * PS ≤ s.page_pos →
        s.page_pos < U → alloc_pages PS s n al = (.ok a, s') →
        s'.page_pos < s.page_pos ∧ a = s'.page_pos ∧
          a + n * PS ≤ s.page_pos ∧
          (s.page_pos % PS = 0 → s.page_pos - s'.page_pos = n * PS)) ∧
      (∀ (PS k : Nat) (s : EarlyAllocator) (rs : List (Nat × Nat))
          (s' : EarlyAllocator),
          PS = 2 ^ k → k < 64 → s.page_pos < U → PageTrace PS s rs s' →
          List.Pairwise
            (fun p q => p.1 + p.2 * PS ≤ q.1 ∨ q.1 + q.2 * PS ≤ p.1) rs) := by
  constructor
  · intro PS k s n al a s' hPS hk hn hnw hU hok
    obtain ⟨hs', hlt, ha⟩ :=
      alloc_pages_ok_arith PS k s n al a s' hPS hk hnw hU hok
    have hPSpos : 0 < PS := by
      rw [hPS]
      exact Nat.two_pow_pos k
    have hsa : s'.page_pos = a := by rw [hs']
    have hmodle : (s.page_pos - n * PS) % PS ≤ s.page_pos - n * PS :=
      Nat.mod_le _ _
    have hnPS : PS ≤ n * PS := Nat.le_mul_of_pos_left PS hn
    refine ⟨by omega, hsa.symm, by omega, ?_⟩
    intro hal0
    have hd : (s.page_pos - n * PS) % PS = 0 := by
      have h3 : PS ∣ s.page_pos - n * PS :=
        Nat.dvd_sub' (Nat.dvd_of_mod_eq_zero hal0) (dvd_mul_left PS n)
      exact Nat.mod_eq_zero_of_dvd h3
    omega
  · intro PS k s rs s' hPS hk hU ht
    exact (page_trace_pairwise PS k hPS hk s rs s' ht hU).imp
      (fun h => Or.inr h)

/-- C8 witness: two successive in-bounds page allocations on the region
`[0x1000, 0x6000)`, checking the strict cursor decrease of the first call
and the disjointness of the two returned ranges. -/
theorem C8_pages_decrease_disjoint_witness :
    1 ≤ (2 : Nat) ∧
      2 * 0x1000 ≤ (init EarlyAllocator.new 0x1000 0x5000).page_pos ∧
      (init EarlyAllocator.new 0x1000 0x5000).page_pos < U ∧
      ({ start := 0x1000, end_ := 0x6000, count := 0, byte_pos := 0x1000,
         page_pos := 0x4000 } : EarlyAllocator).page_pos <
        (init EarlyAllocator.new 0x1000 0x5000).page_pos ∧
      List.Pairwise
        (fun p q => p.1 + p.2 * 0x1000 ≤ q.1 ∨ q.1 + q.2 * 0x1000 ≤ p.1)
        [((0x4000 : Nat), (2 : Nat)), (0x3000, 1)] := by
  refine ⟨by norm_num, by decide, by decide, ?_, ?_⟩
  · exact (C8_pages_decrease_disjoint.1 0x1000 12
      (init EarlyAllocator.new 0x1000 0x5000) 2 0x1000 0x4000
      { start := 0x1000, end_ := 0x6000, count := 0, byte_pos := 0x1000,
        page_pos := 0x4000 } (by norm_num) (by norm_num) (by norm_num)
      (by decide) (by decide) (by decide)).1
  · exact C8_pages_decrease_disjoint.2 0x1000 12
      (init EarlyAllocator.new 0x1000 0x5000) [(0x4000, 2), (0x3000, 1)]
      { start := 0x1000, end_ := 0x6000, count := 0, byte_pos := 0x1000,
        page_pos := 0x3000 } (by norm_num) (by norm_num) (by decide)
      (PageTrace.cons (init EarlyAllocator.new 0x1000 0x5000)
        { start := 0x1000, end_ := 0x6000, count := 0, byte_pos := 0x1000,
          page_pos := 0x4000 }
        { start := 0x1000, end_ := 0x6000, count := 0, byte_pos := 0x1000,
          page_pos := 0x3000 } 2 0x1000 0x4000 [(0x3000, 1)]
        (by norm_num) (by decide) (by decide)
        (PageTrace.cons
          { start := 0x1000, end_ := 0x6000, count := 0, byte_pos := 0x1000,
            page_pos := 0x4000 }
          { start := 0x1000, end_ := 0x6000, count := 0, byte_pos := 0x1000,
            page_pos := 0x3000 }
          { start := 0x1000, end_ := 0x6000, count := 0, byte_pos := 0x1000,
            page_pos := 0x3000 } 1 0x1000 0x3000 []
          (by norm_num) (by decide) (by decide)
          (PageTrace.nil
            { start := 0x1000, end_ := 0x6000, count := 0,
              byte_pos := 0x1000, page_pos := 0x3000 })))

end BumpAllocator
